import Mathlib

/-!
Verification development for the weft repository (deterministic concurrency
testing framework for Go, build tag detsched).

The definitions below are a shallow embedding of the code as it stands:

armed with the fact that in the current sources the deterministic engine is a
stub, the embedding models exactly what the stub does.

concretely, from the sources:

internal scheduler (src/unnamed/part_012, package scheduler):
  New(seed) stores rand.New(rand.NewSource(int64(seed))) in the rng field;
  Spawn(fn) increments a sync.WaitGroup and launches fn on a fresh goroutine
  immediately (the rng field is never consulted); Wait() is waitGroup.Wait(),
  returning nothing, which returns exactly when every spawned function has
  returned; Sleep(d) is time.Sleep(d / 1000); After(d) is time.After(d / 1000).

internal/scheduler/mutex.go: Mutex wraps a plain sync.Mutex (no owner field,
no task identity is passed to Lock or Unlock).

internal/scheduler/channel.go and src/channel.go: Chan wraps a native Go
channel; Send, Recv, TrySend, TryRecv and Close delegate directly, so their
semantics are the Go language channel semantics, embedded below.

src/mutex.go (detsched): weft.Mutex lazily allocates the internal mutex on
first Lock or TryLock, and Unlock on the zero value panics with the message
"unlock of unlocked mutex".

Because the spawned functions run as real goroutines, the interleaving of
their steps is chosen by the Go runtime, not by the stored PRNG.  The
embedding makes that choice an explicit parameter: a host schedule, a list of
task indices consumed one step at a time.
-/

namespace Weft

/-- State of a Go sync.Mutex as observable through its API: a locked bit and
the queue of goroutines blocked in Lock.  sync.Mutex records no owner, so no
owner field exists here, faithfully to the source. -/
structure SyncMutex where
  locked : Bool
  waiters : List Nat
  deriving DecidableEq, Repr

/-- NewMutex (internal/scheduler/mutex.go) returns a zero sync.Mutex:
unlocked, no waiters. -/
def SyncMutex.new : SyncMutex := ⟨false, []⟩

/-- Lock as invoked by task t (internal/scheduler/mutex.go delegates to
sync.Mutex.Lock).  If unlocked, the caller acquires (second component true);
otherwise the caller is appended to the waiter queue and blocks (second
component false).  There is no failure outcome: sync.Mutex.Lock returns
nothing and signals no error, in particular it cannot detect a reentrant
acquisition because no owner is recorded. -/
def SyncMutex.lockStep (m : SyncMutex) (t : Nat) : SyncMutex × Bool :=
  if m.locked then (⟨true, m.waiters ++ [t]⟩, false)
  else (⟨true, m.waiters⟩, true)

/-- Unlock (internal/scheduler/mutex.go delegates to sync.Mutex.Unlock).
The method receives no caller identity.  If the mutex is not locked the Go
runtime raises a fatal error (modelled as none).  Otherwise the mutex is
released; when a waiter is queued, the head waiter is woken and takes the
lock (returned as the second component). -/
def SyncMutex.unlockStep (m : SyncMutex) : Option (SyncMutex × Option Nat) :=
  if m.locked then
    match m.waiters with
    | [] => some (⟨false, []⟩, none)
    | w :: ws => some (⟨true, ws⟩, some w)
  else none

/-- Unlock as invoked by task caller.  The source method
(func (m *Mutex) Unlock() { m.mu.Unlock() }) takes no task identity, so the
caller argument cannot influence the result. -/
def SyncMutex.unlockAs (_caller : Nat) (m : SyncMutex) :
    Option (SyncMutex × Option Nat) :=
  m.unlockStep

/-- TryLock (delegating to sync.Mutex.TryLock): acquires and returns true
iff currently unlocked; never blocks. -/
def SyncMutex.tryLockStep (m : SyncMutex) : SyncMutex × Bool :=
  if m.locked then (m, false) else (⟨true, m.waiters⟩, true)

/-- weft.Mutex (src/mutex.go, detsched build): holds a possibly nil pointer
to the internal scheduler mutex.  The zero value is none. -/
abbrev WMutex := Option SyncMutex

/-- weft.Mutex.Lock: if the pointer is nil, allocate a fresh internal mutex,
then delegate to its Lock. -/
def WMutex.Lock (m : WMutex) (t : Nat) : WMutex × Bool :=
  let mu := m.getD SyncMutex.new
  let r := mu.lockStep t
  (some r.1, r.2)

/-- weft.Mutex.TryLock: if the pointer is nil, allocate a fresh internal
mutex, then delegate to its TryLock. -/
def WMutex.TryLock (m : WMutex) : WMutex × Bool :=
  let mu := m.getD SyncMutex.new
  let r := mu.tryLockStep
  (some r.1, r.2)

/-- weft.Mutex.Unlock: panics with "unlock of unlocked mutex" when the
pointer is nil, otherwise delegates to the internal Unlock (whose failure is
the sync fatal error). -/
def WMutex.Unlock (m : WMutex) : Except String (WMutex × Option Nat) :=
  match m with
  | none => Except.error "unlock of unlocked mutex"
  | some mu =>
    match mu.unlockStep with
    | none => Except.error "sync: unlock of unlocked mutex"
    | some r => Except.ok (some r.1, r.2)

/-- Claim C10: in deterministic mode the zero value of weft.Mutex is usable:
the first Lock or TryLock lazily allocates the underlying scheduler mutex and
behaves exactly as on a freshly allocated unlocked mutex, while Unlock on a
never-used weft.Mutex panics with the message "unlock of unlocked mutex". -/
theorem claimC10_zero_value_mutex :
    (∀ t : Nat, WMutex.Lock none t = WMutex.Lock (some SyncMutex.new) t ∧
      WMutex.Lock none t = (some ⟨true, []⟩, true)) ∧
    WMutex.TryLock none = WMutex.TryLock (some SyncMutex.new) ∧
    WMutex.TryLock none = (some ⟨true, []⟩, true) ∧
    WMutex.Unlock none = Except.error "unlock of unlocked mutex" := by
  refine ⟨fun t => ⟨rfl, rfl⟩, rfl, rfl, rfl⟩

/-- Claim C6 counterpart: the code side.  After any task owner acquires a
fresh internal mutex, Unlock invoked by any other task caller succeeds
silently (no misuse error), returning the unlocked mutex: sync.Mutex stores
no owner and the wrapper passes no task identity, so the misuse check the
claim requires cannot occur. -/
theorem claimC6_nonowner_unlock_succeeds (owner caller : Nat)
    (h : owner ≠ caller) :
    SyncMutex.unlockAs caller (SyncMutex.new.lockStep owner).1 =
      some (SyncMutex.new, none) := by
  rfl

/-- Witness for claimC6_nonowner_unlock_succeeds at owner 0, caller 1. -/
theorem claimC6_nonowner_unlock_succeeds_witness :
    SyncMutex.unlockAs 1 (SyncMutex.new.lockStep 0).1 =
      some (SyncMutex.new, none) :=
  claimC6_nonowner_unlock_succeeds 0 1 (by decide)

/-- One primitive operation of a user task body.  act r is an observable user
action touching resource r (recorded, like every operation, as a
(task identifier, operation, resource identifier) log entry). -/
inductive Instr where
  | lock (m : Nat)
  | unlock (m : Nat)
  | act (r : Nat)
  deriving DecidableEq, Repr

/-- Lifecycle state of a spawned goroutine, mirroring TaskState in
internal/scheduler/task.go (TaskReady, TaskRunning, TaskBlocked, TaskDone):
ready when the goroutine has been created but not yet executed a step,
running from its first step until it blocks or finishes, blockedOn m while
parked in Lock on mutex m, done when its function has returned. -/
inductive TStatus where
  | ready
  | running
  | blockedOn (m : Nat)
  | done
  deriving DecidableEq, Repr

/-- A spawned task: its lifecycle state and its remaining instructions. -/
structure TaskRec where
  status : TStatus
  prog : List Instr
  deriving DecidableEq, Repr

/-- Whether the host runtime may execute a step of a task in this state. -/
def TStatus.isRunnable : TStatus → Bool
  | .ready => true
  | .running => true
  | _ => false

/-- Global state of one run of the stub engine (src/unnamed/part_012).
seed is the value passed to New and stored in the rng field; no operation
below reads it, faithfully to the source, where Spawn and Wait never consult
s.rng.  tasks are the goroutines launched by Spawn, all live concurrently.
log collects the observable (task, operation) records.  fatalFlag models the
unrecoverable Go runtime error raised by sync.Mutex.Unlock on an unlocked
mutex, which aborts the whole process. -/
structure RunState where
  seed : Nat
  tasks : List TaskRec
  mutexes : List SyncMutex
  log : List (Nat × Instr)
  fatalFlag : Bool
  deriving DecidableEq, Repr

/-- Mark task w ready again after it is woken by an unlock handoff. -/
def wakeTask (ts : List TaskRec) (w : Nat) : List TaskRec :=
  match ts[w]? with
  | none => ts
  | some tw => ts.set w { tw with status := TStatus.ready }

/-- One step of the host runtime: it picks goroutine i and lets it execute up
to one primitive operation.  Spawned goroutines run concurrently with no
serialization: any runnable task may be picked at any moment, and nothing
here consults the stored seed.  A task whose instruction list is exhausted
returns, which runs waitGroup.Done (status done). -/
def RunState.step (s : RunState) (i : Nat) : RunState :=
  if s.fatalFlag then s else
  match s.tasks[i]? with
  | none => s
  | some tr =>
    if tr.status.isRunnable then
      match tr.prog with
      | [] => { s with tasks := s.tasks.set i { tr with status := TStatus.done } }
      | ins :: rest =>
        match ins with
        | .act r =>
          { s with tasks := s.tasks.set i ⟨TStatus.running, rest⟩,
                   log := s.log ++ [(i, Instr.act r)] }
        | .lock m =>
          match s.mutexes[m]? with
          | none => s
          | some mu =>
            if mu.locked then
              { s with tasks := s.tasks.set i ⟨TStatus.blockedOn m, rest⟩,
                       mutexes := s.mutexes.set m ⟨true, mu.waiters ++ [i]⟩,
                       log := s.log ++ [(i, Instr.lock m)] }
            else
              { s with tasks := s.tasks.set i ⟨TStatus.running, rest⟩,
                       mutexes := s.mutexes.set m ⟨true, mu.waiters⟩,
                       log := s.log ++ [(i, Instr.lock m)] }
        | .unlock m =>
          match s.mutexes[m]? with
          | none => s
          | some mu =>
            if mu.locked then
              match mu.waiters with
              | [] =>
                { s with tasks := s.tasks.set i ⟨TStatus.running, rest⟩,
                         mutexes := s.mutexes.set m ⟨false, []⟩,
                         log := s.log ++ [(i, Instr.unlock m)] }
              | w :: ws =>
                { s with tasks := wakeTask (s.tasks.set i ⟨TStatus.running, rest⟩) w,
                         mutexes := s.mutexes.set m ⟨true, ws⟩,
                         log := s.log ++ [(i, Instr.unlock m)] }
            else
              { s with fatalFlag := true }
    else s

/-- A run under host schedule sched: the runtime consumes the schedule one
picked task index per step. -/
def RunState.runSteps (s : RunState) (sched : List Nat) : RunState :=
  sched.foldl RunState.step s

/-- The state set up by New(seed) followed by one Spawn per task body, with
the given mutexes allocated by the user program. -/
def initRun (seed : Nat) (progs : List (List Instr)) (nMutex : Nat) : RunState :=
  { seed := seed,
    tasks := progs.map (fun p => ⟨TStatus.ready, p⟩),
    mutexes := List.replicate nMutex SyncMutex.new,
    log := [],
    fatalFlag := false }

/-- Scheduler.Wait (src/unnamed/part_012) is waitGroup.Wait(): it returns
exactly when every spawned task has completed, and it returns no value at
all, so no verdict of any kind is produced. -/
def RunState.allDone (s : RunState) : Prop :=
  ∀ tr ∈ s.tasks, tr.status = TStatus.done

instance (s : RunState) : Decidable s.allDone := by
  unfold RunState.allDone; infer_instance

/-- Wait, entered in state s, returns under host schedule sched iff the run
reaches a state where all tasks are done. -/
def WaitReturns (s : RunState) (sched : List Nat) : Prop :=
  (s.runSteps sched).allDone

/-- No task is runnable: every task is blocked or done. -/
def RunState.noRunnable (s : RunState) : Prop :=
  ∀ tr ∈ s.tasks, tr.status.isRunnable = false

instance (s : RunState) : Decidable s.noRunnable := by
  unfold RunState.noRunnable; infer_instance

/-- A state with no runnable task is a fixed point of the host runtime: no
step of any goroutine can occur. -/
theorem step_of_noRunnable (s : RunState) (h : s.noRunnable) (i : Nat) :
    s.step i = s := by
  unfold RunState.step
  by_cases hf : s.fatalFlag
  · simp [hf]
  · simp only [hf, if_neg, Bool.false_eq_true, if_false]
    cases hg : s.tasks[i]? with
    | none => simp
    | some tr =>
      have hmem : tr ∈ s.tasks := List.getElem?_mem hg
      have := h tr hmem
      simp [this]

/-- A state with no runnable task stays itself under every host schedule. -/
theorem runSteps_of_noRunnable (s : RunState) (h : s.noRunnable)
    (sched : List Nat) : s.runSteps sched = s := by
  induction sched with
  | nil => rfl
  | cons i rest ih =>
    show (s.step i).runSteps rest = s
    rw [step_of_noRunnable s h i]
    exact ih

/-- A two-task program whose only operations are observable actions. -/
def racyProgs : List (List Instr) := [[Instr.act 0], [Instr.act 1]]

/-- Claim C1 is false on the code: the stub Spawn launches each task as a raw
goroutine and never consults the PRNG stored by New, so the verdict and the
record sequence are a function of the host runtime schedule, not of the seed.
For every pair of seeds, the two host schedules below yield different record
sequences, so two executions with the same seed need not agree and the PRNG
is not the source of the non-determinism. -/
theorem claimC1_records_depend_on_host_schedule (seed seedb : Nat) :
    ((initRun seed racyProgs 0).runSteps [0, 1]).log
        = [(0, Instr.act 0), (1, Instr.act 1)] ∧
    ((initRun seedb racyProgs 0).runSteps [1, 0]).log
        = [(1, Instr.act 1), (0, Instr.act 0)] ∧
    ((initRun seed racyProgs 0).runSteps [0, 1]).log
        ≠ ((initRun seedb racyProgs 0).runSteps [1, 0]).log := by
  refine ⟨rfl, rfl, ?_⟩
  have h1 : ((initRun seed racyProgs 0).runSteps [0, 1]).log
      = [(0, Instr.act 0), (1, Instr.act 1)] := rfl
  have h2 : ((initRun seedb racyProgs 0).runSteps [1, 0]).log
      = [(1, Instr.act 1), (0, Instr.act 0)] := rfl
  rw [h1, h2]
  decide

/-- Two tasks taking two mutexes in opposite orders. -/
def deadProgs : List (List Instr) :=
  [[Instr.lock 0, Instr.lock 1, Instr.unlock 1, Instr.unlock 0],
   [Instr.lock 1, Instr.lock 0, Instr.unlock 0, Instr.unlock 1]]

/-- The state reached when the host runtime interleaves the two lock
acquisitions: task 0 holds mutex 0 and is parked on mutex 1, task 1 holds
mutex 1 and is parked on mutex 0. -/
def deadState : RunState := (initRun 0 deadProgs 2).runSteps [0, 1, 0, 1]

/-- Claim C2 is false on the code: when the run reaches a state with no task
runnable and tasks parked on resources, Wait does not terminate with a
Deadlock verdict.  Wait is waitGroup.Wait(), which returns (with no value: no
verdict type exists in the code) only when every task is done; in the reached
deadlock state both tasks are parked, no error is raised, and no continuation
of the run under any host schedule ever makes Wait return. -/
theorem claimC2_wait_blocks_forever_on_deadlock :
    (deadState.tasks[0]?).map TaskRec.status = some (TStatus.blockedOn 1) ∧
    (deadState.tasks[1]?).map TaskRec.status = some (TStatus.blockedOn 0) ∧
    deadState.fatalFlag = false ∧
    ∀ sched : List Nat, ¬ WaitReturns deadState sched := by
  refine ⟨rfl, rfl, rfl, ?_⟩
  intro sched hret
  have hnr : deadState.noRunnable := by decide
  unfold WaitReturns at hret
  rw [runSteps_of_noRunnable _ hnr] at hret
  exact absurd hret (by decide)

/-- A two-task program in which each task performs two actions. -/
def parallelProgs : List (List Instr) :=
  [[Instr.act 0, Instr.act 0], [Instr.act 1, Instr.act 1]]

/-- Number of tasks currently in the running state. -/
def runningCount (s : RunState) : Nat :=
  s.tasks.countP (fun tr => tr.status == TStatus.running)

/-- Claim C3 is false on the code: Spawn starts every task on its own
goroutine immediately and nothing serializes them, so a state with two tasks
simultaneously mid-execution (both in the running state, each with work
remaining) is reachable.  The claimed invariant that at most one task is
running in every reachable state fails. -/
theorem claimC3_two_tasks_running_simultaneously :
    runningCount ((initRun 0 parallelProgs 0).runSteps [0, 1]) = 2 := by
  decide

/-- A single task that locks mutex 0 twice. -/
def reentrantProgs : List (List Instr) :=
  [[Instr.lock 0, Instr.lock 0, Instr.unlock 0]]

/-- The state after the task acquires mutex 0 and then calls Lock on it
again. -/
def reentrantState : RunState := (initRun 0 reentrantProgs 1).runSteps [0, 0]

/-- Claim C7 is false on the code: a reentrant Lock by the current owner is
not reported as a misuse error.  sync.Mutex records no owner, Lock has no
failure outcome, so the owner simply parks behind itself: the reached state
has the task blocked on the mutex it holds, no error flag, and it is a fixed
point of the runtime under every host schedule: the owner blocks forever. -/
theorem claimC7_reentrant_lock_blocks_forever :
    (reentrantState.tasks[0]?).map TaskRec.status = some (TStatus.blockedOn 0) ∧
    reentrantState.mutexes = [⟨true, [0]⟩] ∧
    reentrantState.fatalFlag = false ∧
    ∀ sched : List Nat, reentrantState.runSteps sched = reentrantState := by
  refine ⟨rfl, rfl, rfl, ?_⟩
  intro sched
  exact runSteps_of_noRunnable _ (by decide) sched

/-- Scheduler.Sleep (src/unnamed/part_012) is time.Sleep(d / 1000): it
returns the scheduler state unchanged (nothing is parked, no deadline is
recorded, no logical clock exists anywhere in the code) paired with the
wall-clock nanosecond count handed to time.Sleep.  Durations are modelled as
nonnegative nanosecond counts; Go integer division truncates. -/
def SchedulerSleep (s : RunState) (d : Nat) : RunState × Nat := (s, d / 1000)

/-- Claim C4 is false on the code: Sleep consults the wall clock and keeps no
virtual clock.  For every state and duration the scheduler state is returned
untouched, so no task is parked with a logical deadline and Sleep(0) does not
yield (nothing is marked ready, there being no ready queue at all); and for
a 1ms logical duration the calling thread is blocked for 1000 wall-clock
nanoseconds, a wall-clock call influencing execution. -/
theorem claimC4_sleep_is_wall_clock :
    (∀ (s : RunState) (d : Nat), (SchedulerSleep s d).1 = s) ∧
    (SchedulerSleep (initRun 0 racyProgs 0) 1000000).2 = 1000 ∧
    0 < (SchedulerSleep (initRun 0 racyProgs 0) 1000000).2 ∧
    (SchedulerSleep (initRun 0 racyProgs 0) 0).2 = 0 := by
  exact ⟨fun s d => rfl, rfl, by decide, rfl⟩

/-- Scheduler.After (src/unnamed/part_012) is time.After(d / 1000): the only
datum derived from the requested duration is the wall-clock deadline d / 1000
handed to the Go runtime.  No timer queue, logical deadline, or insertion
sequence is kept anywhere in the engine. -/
def SchedulerAfter (d : Nat) : Nat := d / 1000

/-- Delivery model for the runtime timers the stub creates: the Go runtime
may deliver timer signals in any order consistent with their wall-clock
deadlines.  This grants the runtime more ordering than Go actually guarantees
across distinct timer channels; the claim fails even under this generous
model.  ds lists the durations passed to After in insertion order; ord lists
timer indices in delivery order. -/
def admissibleDelivery (ds : List Nat) (ord : List Nat) : Prop :=
  List.Perm ord (List.range ds.length) ∧
  List.Pairwise
    (fun i j => SchedulerAfter (ds.getD i 0) ≤ SchedulerAfter (ds.getD j 0)) ord

/-- Claim C5 is false on the code: timers may fire out of logical deadline
order and ties are not broken by insertion order.  Division by 1000 collapses
the logical deadlines 900 and 100 to the same wall deadline 0, so the
runtime may deliver timer 0 (logical deadline 900) before timer 1 (logical
deadline 100, inserted later); and for two timers with equal logical
deadlines 5000 the delivery order reversing insertion order is also
admissible. -/
theorem claimC5_timer_order_not_guaranteed :
    SchedulerAfter 900 = SchedulerAfter 100 ∧
    admissibleDelivery [900, 100] [0, 1] ∧
    (100 : Nat) < 900 ∧
    admissibleDelivery [5000, 5000] [1, 0] := by
  refine ⟨rfl, ⟨?_, ?_⟩, by decide, ⟨?_, ?_⟩⟩ <;> decide

/-- State of a Go channel of element type α with a fixed capacity, as wrapped
by Chan in internal/scheduler/channel.go (the wrapper methods delegate
directly to the native channel, so the semantics embedded below are the Go
language channel semantics).  buf is the ring buffer front first; sendq holds
the parked senders as (task, value) in arrival order; recvq holds the parked
receivers in arrival order. -/
structure Chan (α : Type) where
  cap : Nat
  buf : List α
  closed : Bool
  sendq : List (Nat × α)
  recvq : List Nat
  deriving DecidableEq, Repr

/-- Result of a receive: ret v ok means the call returns immediately with
value v and flag ok (the source reads v, ok := <-c.ch); park means the caller
blocks, parked at the tail of the receiver queue. -/
inductive RecvRes (α : Type) where
  | ret (v : α) (ok : Bool) (c : Chan α)
  | park (c : Chan α)
  deriving DecidableEq, Repr

/-- Result of a send: completed means the value was handed to the parked
receiver deliveredTo (who returns (v, true)) or placed in the buffer; park
means the caller blocks carrying its value; panicked is a send on a closed
channel. -/
inductive SendRes (α : Type) where
  | completed (c : Chan α) (deliveredTo : Option Nat)
  | park (c : Chan α)
  | panicked
  deriving DecidableEq, Repr

/-- Recv by task t, following the Go runtime: a receive on a closed channel
with an empty buffer returns the zero value of the element type and false,
immediately and without parking; otherwise a buffered value is taken (and a
parked sender, if any, completes into the vacated slot), or a parked sender
hands its value over directly, or the caller parks. -/
def Chan.Recv [Inhabited α] (c : Chan α) (t : Nat) : RecvRes α :=
  match c.buf with
  | v :: rest =>
    match c.sendq with
    | [] => RecvRes.ret v true { c with buf := rest }
    | (_, w) :: sq => RecvRes.ret v true { c with buf := rest ++ [w], sendq := sq }
  | [] =>
    if c.closed then RecvRes.ret default false c
    else
      match c.sendq with
      | (_, w) :: sq => RecvRes.ret w true { c with sendq := sq }
      | [] => RecvRes.park { c with recvq := c.recvq ++ [t] }

/-- Send of value v by task t, following the Go runtime: sending on a closed
channel panics; otherwise the value goes directly to the head parked
receiver, or into the buffer when there is room, or the sender parks at the
tail of the sender queue carrying v. -/
def Chan.Send (c : Chan α) (t : Nat) (v : α) : SendRes α :=
  if c.closed = true then SendRes.panicked
  else
    match c.recvq with
    | r :: rq => SendRes.completed { c with recvq := rq } (some r)
    | [] =>
      if c.buf.length < c.cap then
        SendRes.completed { c with buf := c.buf ++ [v] } none
      else
        SendRes.park { c with sendq := c.sendq ++ [(t, v)] }

/-- One channel operation arriving from some task. -/
inductive ChanEv (α : Type) where
  | send (t : Nat) (v : α)
  | recv (t : Nat)
  | close
  deriving DecidableEq, Repr

/-- A run over one channel: the channel state, the multiset of values passed
to Send so far, the multiset of values returned by receives with ok true,
and whether the run has died of a runtime panic (send on closed, double
close, or close with parked senders, which panics those senders). -/
structure ChanRun (α : Type) where
  ch : Chan α
  passed : Multiset α
  received : Multiset α
  panicked : Bool
  deriving DecidableEq

/-- Fresh run over a channel created by MakeChan with the given capacity. -/
def ChanRun.init (α : Type) (capn : Nat) : ChanRun α :=
  ⟨⟨capn, [], false, [], []⟩, 0, 0, false⟩

/-- One event.  A value handed directly to a parked receiver is returned by
that receive with ok true, so it is counted as received at delivery.  Close
follows Go: double close panics, close wakes every parked receiver with the
zero value and false (nothing received), and close while senders are parked
panics those senders. -/
def ChanRun.step [Inhabited α] (s : ChanRun α) (e : ChanEv α) : ChanRun α :=
  if s.panicked then s
  else
    match e with
    | ChanEv.send t v =>
      match s.ch.Send t v with
      | SendRes.panicked => { s with panicked := true }
      | SendRes.completed c (some _) =>
        { s with ch := c, passed := v ::ₘ s.passed, received := v ::ₘ s.received }
      | SendRes.completed c none =>
        { s with ch := c, passed := v ::ₘ s.passed }
      | SendRes.park c => { s with ch := c, passed := v ::ₘ s.passed }
    | ChanEv.recv t =>
      match s.ch.Recv t with
      | RecvRes.ret v true c => { s with ch := c, received := v ::ₘ s.received }
      | RecvRes.ret _ false c => { s with ch := c }
      | RecvRes.park c => { s with ch := c }
    | ChanEv.close =>
      if s.ch.closed then { s with panicked := true }
      else
        match s.ch.sendq with
        | [] => { s with ch := { s.ch with closed := true, recvq := [] } }
        | _ :: _ => { s with panicked := true }

/-- Run a whole event sequence. -/
def ChanRun.run [Inhabited α] (s : ChanRun α) (evs : List (ChanEv α)) : ChanRun α :=
  evs.foldl ChanRun.step s

/-- The multiset of values in flight inside a channel: buffered values plus
the values carried by parked senders. -/
def Chan.inFlight (c : Chan α) : Multiset α :=
  ↑c.buf + ↑(c.sendq.map Prod.snd)

/-- Value conservation bookkeeping: every value passed to Send is accounted
for as received, sitting in the buffer, or still carried by a parked
sender. -/
def ChanRun.conserves (s : ChanRun α) : Prop :=
  s.passed = s.received + s.ch.inFlight

theorem conserves_init (α : Type) (capn : Nat) : (ChanRun.init α capn).conserves := by
  simp [ChanRun.init, ChanRun.conserves, Chan.inFlight]

theorem Send_completed_some (c : Chan α) (t : Nat) (v : α) (c2 : Chan α)
    (r : Nat) (h : c.Send t v = SendRes.completed c2 (some r)) :
    c2.inFlight = c.inFlight := by
  unfold Chan.Send at h
  by_cases hc : c.closed = true
  · simp [hc] at h
  · simp only [hc, if_false] at h
    cases hr : c.recvq with
    | cons r2 rq =>
      simp only [hr] at h
      cases h
      rfl
    | nil =>
      simp only [hr] at h
      by_cases hlen : c.buf.length < c.cap
      · simp [hlen] at h
      · simp [hlen] at h

theorem Send_completed_none (c : Chan α) (t : Nat) (v : α) (c2 : Chan α)
    (h : c.Send t v = SendRes.completed c2 none) :
    c2.inFlight = v ::ₘ c.inFlight := by
  unfold Chan.Send at h
  by_cases hc : c.closed = true
  · simp [hc] at h
  · simp only [hc, if_false] at h
    cases hr : c.recvq with
    | cons r2 rq =>
      simp [hr] at h
    | nil =>
      simp only [hr] at h
      by_cases hlen : c.buf.length < c.cap
      · simp only [hlen, if_true] at h
        cases h
        simp only [Chan.inFlight, ← Multiset.coe_add, ← Multiset.cons_coe,
          Multiset.coe_nil, Multiset.cons_add, Multiset.add_cons, add_zero,
          zero_add]
      · simp [hlen] at h

theorem Send_park (c : Chan α) (t : Nat) (v : α) (c2 : Chan α)
    (h : c.Send t v = SendRes.park c2) :
    c2.inFlight = v ::ₘ c.inFlight := by
  unfold Chan.Send at h
  by_cases hc : c.closed = true
  · simp [hc] at h
  · simp only [hc, if_false] at h
    cases hr : c.recvq with
    | cons r2 rq => simp [hr] at h
    | nil =>
      simp only [hr] at h
      by_cases hlen : c.buf.length < c.cap
      · simp [hlen] at h
      · simp only [hlen, if_false] at h
        cases h
        simp only [Chan.inFlight, List.map_append, List.map_cons, List.map_nil,
          ← Multiset.coe_add, ← Multiset.cons_coe, Multiset.coe_nil,
          Multiset.cons_add, Multiset.add_cons, add_zero, zero_add]

theorem Recv_ret_true [Inhabited α] (c : Chan α) (t : Nat) (v : α)
    (c2 : Chan α) (h : c.Recv t = RecvRes.ret v true c2) :
    v ::ₘ c2.inFlight = c.inFlight := by
  unfold Chan.Recv at h
  cases hb : c.buf with
  | cons w rest =>
    simp only [hb] at h
    cases hs : c.sendq with
    | nil =>
      simp only [hs] at h
      cases h
      simp only [Chan.inFlight, hb, hs, List.map_nil, ← Multiset.cons_coe,
        Multiset.coe_nil, Multiset.cons_add, Multiset.add_cons, add_zero,
        zero_add]
    | cons p sq =>
      cases p with
      | mk sid w2 =>
        simp only [hs] at h
        cases h
        simp only [Chan.inFlight, hb, hs, List.map_cons, List.map_append,
          List.map_nil, ← Multiset.coe_add, ← Multiset.cons_coe,
          Multiset.coe_nil, Multiset.cons_add, Multiset.add_cons, add_zero,
          zero_add]
        exact Multiset.cons_swap v w2 _
  | nil =>
    simp only [hb] at h
    by_cases hc : c.closed = true
    · simp [hc] at h
    · simp only [hc, Bool.false_eq_true, if_false] at h
      cases hs : c.sendq with
      | cons p sq =>
        cases p with
        | mk sid w =>
          simp only [hs] at h
          cases h
          simp only [Chan.inFlight, hb, hs, List.map_cons, Multiset.coe_nil,
            Multiset.cons_add, Multiset.add_cons, ← Multiset.cons_coe,
            add_zero, zero_add]
      | nil => simp [hs] at h

theorem Recv_ret_false [Inhabited α] (c : Chan α) (t : Nat) (v : α)
    (c2 : Chan α) (h : c.Recv t = RecvRes.ret v false c2) : c2 = c := by
  unfold Chan.Recv at h
  cases hb : c.buf with
  | cons w rest =>
    simp only [hb] at h
    cases hs : c.sendq with
    | nil => simp [hs] at h
    | cons p sq =>
      cases p with
      | mk sid w2 => simp [hs] at h
  | nil =>
    simp only [hb] at h
    by_cases hc : c.closed = true
    · simp only [hc, if_true] at h
      cases h
      rfl
    · simp only [hc, Bool.false_eq_true, if_false] at h
      cases hs : c.sendq with
      | cons p sq =>
        cases p with
        | mk sid w => simp [hs] at h
      | nil => simp [hs] at h

theorem Recv_park [Inhabited α] (c : Chan α) (t : Nat) (c2 : Chan α)
    (h : c.Recv t = RecvRes.park c2) : c2.inFlight = c.inFlight := by
  unfold Chan.Recv at h
  cases hb : c.buf with
  | cons w rest =>
    simp only [hb] at h
    cases hs : c.sendq with
    | nil => simp [hs] at h
    | cons p sq =>
      cases p with
      | mk sid w2 => simp [hs] at h
  | nil =>
    simp only [hb] at h
    by_cases hc : c.closed = true
    · simp [hc] at h
    · simp only [hc, Bool.false_eq_true, if_false] at h
      cases hs : c.sendq with
      | cons p sq =>
        cases p with
        | mk sid w => simp [hs] at h
      | nil =>
        simp only [hs] at h
        cases h
        simp [Chan.inFlight, hb, hs]

theorem conserves_step [Inhabited α] (s : ChanRun α) (e : ChanEv α)
    (h : s.conserves) : (s.step e).conserves := by
  have hflight : s.passed = s.received + s.ch.inFlight := h
  unfold ChanRun.conserves
  by_cases hp : s.panicked
  · simpa [ChanRun.step, hp] using hflight
  · cases e with
    | send t v =>
      simp only [ChanRun.step, hp, Bool.false_eq_true, if_false]
      cases hres : s.ch.Send t v with
      | panicked => exact hflight
      | completed c2 delivered =>
        cases delivered with
        | some r =>
          show v ::ₘ s.passed = (v ::ₘ s.received) + c2.inFlight
          rw [Send_completed_some s.ch t v c2 r hres, hflight,
            Multiset.cons_add]
        | none =>
          show v ::ₘ s.passed = s.received + c2.inFlight
          rw [Send_completed_none s.ch t v c2 hres, hflight,
            Multiset.add_cons]
      | park c2 =>
        show v ::ₘ s.passed = s.received + c2.inFlight
        rw [Send_park s.ch t v c2 hres, hflight, Multiset.add_cons]
    | recv t =>
      simp only [ChanRun.step, hp, Bool.false_eq_true, if_false]
      cases hres : s.ch.Recv t with
      | ret v ok c2 =>
        cases ok with
        | true =>
          show s.passed = (v ::ₘ s.received) + c2.inFlight
          rw [hflight, ← Recv_ret_true s.ch t v c2 hres, Multiset.cons_add,
            Multiset.add_cons]
        | false =>
          show s.passed = s.received + c2.inFlight
          rw [Recv_ret_false s.ch t v c2 hres]
          exact hflight
      | park c2 =>
        show s.passed = s.received + c2.inFlight
        rw [Recv_park s.ch t c2 hres]
        exact hflight
    | close =>
      simp only [ChanRun.step, hp, Bool.false_eq_true, if_false]
      by_cases hc : s.ch.closed
      · simpa [hc] using hflight
      · simp only [hc, Bool.false_eq_true, if_false]
        cases hs : s.ch.sendq with
        | nil =>
          show s.passed = s.received + Chan.inFlight _
          rw [hflight]
          simp [Chan.inFlight, hs]
        | cons p sq => exact hflight

theorem conserves_run [Inhabited α] (s : ChanRun α) (evs : List (ChanEv α))
    (h : s.conserves) : (s.run evs).conserves := by
  induction evs generalizing s with
  | nil => exact h
  | cons e rest ih =>
    show ((s.step e).run rest).conserves
    exact ih _ (conserves_step s e h)

/-- Claim C8: Recv on a channel that is closed, whose buffer is empty and
that has no parked sender returns immediately, without parking, with the
zero value of the element type and open flag false, leaving the channel
unchanged.  This is the Go receive semantics, to which the source delegates
(v, ok := <-c.ch in internal/scheduler/channel.go). -/
theorem claimC8_recv_closed_empty {α : Type} [Inhabited α] (c : Chan α)
    (t : Nat) (hc : c.closed = true) (hb : c.buf = [])
    (hs : c.sendq = []) :
    c.Recv t = RecvRes.ret default false c := by
  unfold Chan.Recv
  simp [hb, hc]

/-- Witness for claimC8_recv_closed_empty: a concrete closed empty channel
of naturals; the receive returns (0, false) at once. -/
theorem claimC8_recv_closed_empty_witness :
    Chan.Recv (⟨2, [], true, [], []⟩ : Chan Nat) 7 =
      RecvRes.ret 0 false ⟨2, [], true, [], []⟩ :=
  claimC8_recv_closed_empty ⟨2, [], true, [], []⟩ 7 rfl rfl rfl

/-- Claim C9: value conservation.  Over every sequence of channel events on
a channel of any capacity, if at the end no sender is parked on the channel
(which is the situation whenever Wait has returned, since then every spawned
task has completed and in particular no Send is still blocked), the multiset
of values returned by Recv with open flag true equals the multiset of values
passed to Send minus the values still residing in the channel buffer: no
value is lost or duplicated by Send, Recv or buffering. -/
theorem claimC9_value_conservation {α : Type} [Inhabited α] [DecidableEq α] (capn : Nat)
    (evs : List (ChanEv α))
    (hs : ((ChanRun.init α capn).run evs).ch.sendq = []) :
    ((ChanRun.init α capn).run evs).received
      = ((ChanRun.init α capn).run evs).passed
        - (↑((ChanRun.init α capn).run evs).ch.buf : Multiset α) := by
  have hc2 : ((ChanRun.init α capn).run evs).passed
      = ((ChanRun.init α capn).run evs).received
        + ↑((ChanRun.init α capn).run evs).ch.buf := by
    have hcc := conserves_run (ChanRun.init α capn) evs (conserves_init α capn)
    unfold ChanRun.conserves at hcc
    rw [hcc]
    simp [Chan.inFlight, hs]
  rw [hc2, add_tsub_cancel_right]

/-- Witness for claimC9_value_conservation: a capacity 1 channel on which 7
is sent and received, the channel closed, and a final receive observing the
closed channel. -/
theorem claimC9_value_conservation_witness :
    ((ChanRun.init Nat 1).run
        [ChanEv.send 0 7, ChanEv.recv 1, ChanEv.close, ChanEv.recv 1]).ch.sendq
      = [] ∧
    ((ChanRun.init Nat 1).run
        [ChanEv.send 0 7, ChanEv.recv 1, ChanEv.close, ChanEv.recv 1]).received
      = ((ChanRun.init Nat 1).run
          [ChanEv.send 0 7, ChanEv.recv 1, ChanEv.close, ChanEv.recv 1]).passed
        - (↑((ChanRun.init Nat 1).run
            [ChanEv.send 0 7, ChanEv.recv 1, ChanEv.close,
              ChanEv.recv 1]).ch.buf : Multiset Nat) :=
  ⟨rfl, claimC9_value_conservation 1
    [ChanEv.send 0 7, ChanEv.recv 1, ChanEv.close, ChanEv.recv 1] rfl⟩

end Weft
